import Mathlib

/-!
Shallow embedding of the note-parsing and event-extraction engine of
Obsidian-Big-Calendar: the line grouper and event accumulator of
`getEvents.ts` (`getEventsFromFile`, `eventMatchesFilter`) and the entry
parser and event synthesizer of `obComponents/parser.ts` (`extractDates`,
`cleanContent`, `parseLine`, `convertToEvent`, `getMarkBasedOnEvent`,
`STATUS_MAPPING`, `PATTERNS.TASK`).  Strings are modelled over their
character lists; the JavaScript regular expressions used by the source are
embedded as explicit character-list matchers.
-/

namespace BigCalendar

/-- The JavaScript whitespace class `\s`, restricted to the ASCII range
(space, tab, line feed, carriage return, vertical tab, form feed). -/
def jsIsSpace (c : Char) : Bool :=
  c == ' ' || c == '\t' || c == '\n' || c == '\r' ||
  c == Char.ofNat 11 || c == Char.ofNat 12

/-- The JavaScript digit class `\d` (ASCII digits). -/
def isDigitChar (c : Char) : Bool :=
  '0' ≤ c && c ≤ '9'

/-- JavaScript `String.prototype.trim` on a character list. -/
def jsTrimList (cs : List Char) : List Char :=
  ((cs.dropWhile jsIsSpace).reverse.dropWhile jsIsSpace).reverse

/-- JavaScript `String.prototype.trim`. -/
def jsTrim (s : String) : String :=
  ⟨jsTrimList s.toList⟩

/-- JavaScript `String.prototype.startsWith`. -/
def jsStartsWith (pre s : String) : Bool :=
  pre.toList.isPrefixOf s.toList

/-- JavaScript `String.prototype.split` with a single-character separator,
on character lists. -/
def splitCharsOn (sep : Char) : List Char → List (List Char)
  | [] => [[]]
  | c :: rest =>
    if c == sep then [] :: splitCharsOn sep rest
    else
      match splitCharsOn sep rest with
      | g :: gs => (c :: g) :: gs
      | [] => [[c]]

/-- JavaScript `String.prototype.split` with a single-character separator. -/
def jsSplit (sep : Char) (s : String) : List String :=
  (splitCharsOn sep s.toList).map fun g => ⟨g⟩

/-- JavaScript `Array.prototype.join('\n')`. -/
def joinLines : List String → String
  | [] => ""
  | [s] => s
  | s :: rest => s ++ "\n" ++ joinLines rest

/-- `TaskStatus` enum of `parser.ts`. -/
inductive TaskStatus where
  | Todo | Done | Cancelled | Forwarded | Deferred | InProgress | Question
  | Important | Info | Bookmark | Pro | Con | Brainstorming | Example
  | Quote | Note | Win | Lose | Add | Reviewed | Unknown | NotATask
deriving DecidableEq, Repr

/-- `STATUS_MAPPING` of `parser.ts`: status characters to task statuses. -/
def STATUS_MAPPING : List (Char × TaskStatus) :=
  [(' ', .Todo), ('x', .Done), ('X', .Done), ('-', .Cancelled),
   ('>', .Forwarded), ('D', .Deferred), ('/', .InProgress), ('?', .Question),
   ('!', .Important), ('i', .Info), ('B', .Bookmark), ('P', .Pro),
   ('C', .Con), ('b', .Brainstorming), ('E', .Example), ('Q', .Quote),
   ('N', .Note), ('W', .Win), ('L', .Lose), ('+', .Add), ('R', .Reviewed)]

/-- `TimeInfo` of `parser.ts`. -/
structure TimeInfo where
  hour : Nat
  minute : Nat
  second : Option Nat
  isEndTime : Option Bool
deriving DecidableEq, Repr

/-- A `moment.Moment` value as used by the engine: a calendar date carrying a
time of day (the engine only ever builds day-granularity moments). -/
structure Moment where
  year : Nat
  month : Nat
  day : Nat
  hour : Nat
  minute : Nat
deriving DecidableEq, Repr

/-- `DateInfo` of `parser.ts`. -/
structure DateInfo where
  date : String
  moment : Moment
  type : String
  rawMatch : Option String
deriving DecidableEq, Repr

/-- `ParsedLine` of `parser.ts`. -/
structure ParsedLine where
  originalLine : String
  content : String
  indentation : String
  isTask : Bool
  taskStatus : Option TaskStatus
  statusCharacter : Option String
  startTime : Option TimeInfo
  endTime : Option TimeInfo
  dates : List DateInfo
  hasRecurrence : Bool
  recurrenceRule : Option String
  blockLink : Option String
  isListItem : Bool
  listMarker : String
deriving DecidableEq, Repr

/-- `ListEntry` of `parser.ts`: a header plus a joined body. -/
structure ListEntry where
  header : String
  body : String
deriving DecidableEq, Repr

/-- `Model.Event` as built by `convertToEvent`. -/
structure Event where
  id : String
  title : String
  start : Moment
  «end» : Moment
  allDay : Bool
  eventType : String
  path : String
  blockLink : Option String
deriving DecidableEq, Repr

/-- Numeral value of a run of ASCII digit characters. -/
def digitsVal (cs : List Char) : Nat :=
  cs.foldl (fun a c => a * 10 + (c.toNat - 48)) 0

/-- `moment(s, 'YYYY-MM-DD')` on a `YYYY-MM-DD` character list: the named
calendar day at midnight. -/
def parseYMD (cs : List Char) : Moment :=
  { year := digitsVal (cs.take 4)
    month := digitsVal ((cs.drop 5).take 2)
    day := digitsVal ((cs.drop 8).take 2)
    hour := 0
    minute := 0 }

/-- Match the core `@{\d{4}-\d{2}-\d{2}}` of `PATTERNS.DUE_DATE` at the head
of the input; on success return the captured date digits and the rest. -/
def matchDueCore : List Char → Option (List Char × List Char)
  | '@' :: '{' :: y1 :: y2 :: y3 :: y4 :: '-' :: m1 :: m2 :: '-' :: d1 :: d2 :: '}' :: rest =>
    if isDigitChar y1 && isDigitChar y2 && isDigitChar y3 && isDigitChar y4 &&
       isDigitChar m1 && isDigitChar m2 && isDigitChar d1 && isDigitChar d2 then
      some ([y1, y2, y3, y4, '-', m1, m2, '-', d1, d2], rest)
    else none
  | _ => none

/-- Match `\s?@{\d{4}-\d{2}-\d{2}}` (`PATTERNS.DUE_DATE`) at the head of the
input: returns (raw matched text, captured date, rest after the match). -/
def matchDueAt (cs : List Char) : Option (List Char × List Char × List Char) :=
  match cs with
  | [] => none
  | c :: rest =>
    if jsIsSpace c then
      match matchDueCore rest with
      | some (date, after) => some (c :: '@' :: '{' :: (date ++ ['}']), date, after)
      | none => none
    else
      match matchDueCore cs with
      | some (date, after) => some ('@' :: '{' :: (date ++ ['}']), date, after)
      | none => none

/-- One global scan of `PATTERNS.DUE_DATE` (as in `line.matchAll`), fuelled by
the input length: every (raw match, captured date) pair, left to right. -/
def scanDueFuel : Nat → List Char → List (List Char × List Char)
  | 0, _ => []
  | _, [] => []
  | fuel + 1, c :: rest =>
    match matchDueAt (c :: rest) with
    | some (raw, date, after) => (raw, date) :: scanDueFuel fuel after
    | none => scanDueFuel fuel rest

/-- All matches of `PATTERNS.DUE_DATE` in a character list. -/
def scanDue (cs : List Char) : List (List Char × List Char) :=
  scanDueFuel cs.length cs

/-- `extractDates` of `parser.ts`: collect every due-date annotation of a
line into `DateInfo` records, in order of appearance. -/
def extractDates (line : String) : List DateInfo :=
  (scanDue line.toList).map fun rd =>
    { date := ⟨rd.2⟩
      moment := parseYMD rd.2
      type := "date"
      rawMatch := some ⟨rd.1⟩ }

/-- JavaScript `String.prototype.replace` with a plain-string pattern and an
empty replacement: remove the first occurrence, leave the rest untouched. -/
def replaceFirstList : List Char → List Char → List Char
  | [], _ => []
  | c :: rest, pat =>
    if pat.isPrefixOf (c :: rest) then (c :: rest).drop pat.length
    else c :: replaceFirstList rest pat

/-- `cleanContent` of `parser.ts`: strip each date's raw match from the
content, then trim. -/
def cleanContent (content : String) (dates : List DateInfo) : String :=
  jsTrim ⟨dates.foldl (fun acc d =>
    match d.rawMatch with
    | some r => replaceFirstList acc r.toList
    | none => acc) content.toList⟩

/-- `parseLine` of `parser.ts`: build the `ParsedLine` for one `ListEntry`.
Dates are extracted from the body only; content is the header when the
header is non-empty, else the body, cleaned of matched dates. -/
def parseLine (line : ListEntry) : ParsedLine :=
  let content0 := if line.header.length == 0 then line.body else line.header
  let dates := extractDates line.body
  { originalLine := line.header ++ line.body
    content := cleanContent content0 dates
    indentation := ""
    isTask := false
    taskStatus := none
    statusCharacter := none
    startTime := none
    endTime := none
    dates := dates
    hasRecurrence := false
    recurrenceRule := none
    blockLink := none
    isListItem := false
    listMarker := "" }

/-- Zero-padded decimal rendering of width `w` (as in moment's `YYYY`,
`MM`, `DD`, `HH`, `mm` format tokens). -/
def padNum (w n : Nat) : String :=
  let s := toString n
  ⟨List.replicate (w - s.length) '0' ++ s.toList⟩

/-- `startDate.format('YYYYMMDDHHmm')`. -/
def formatYYYYMMDDHHmm (m : Moment) : String :=
  padNum 4 m.year ++ padNum 2 m.month ++ padNum 2 m.day ++
  padNum 2 m.hour ++ padNum 2 m.minute

/-- `convertToEvent` of `parser.ts`: synthesize at most one event from a
parsed entry, its originating line index, and the note path. -/
def convertToEvent (parsedLine : ParsedLine) (lineIndex : Nat) (path : String) :
    Option Event :=
  if parsedLine.dates.any (fun d => d.type == "date") then
    match parsedLine.dates.head? with
    | some d0 =>
      some { id := formatYYYYMMDDHHmm d0.moment ++ "00" ++ toString lineIndex
             title := parsedLine.content
             start := d0.moment
             «end» := d0.moment
             allDay := true
             eventType := "default"
             path := path
             blockLink := parsedLine.blockLink }
    | none => none
  else none

/-- Test of the line grouper's checklist recogniser `/^\s*-\s+\[.\]/`: on a
match, return what follows the matched prefix. -/
def checklistMatchRest (cs : List Char) : Option (List Char) :=
  match cs.dropWhile jsIsSpace with
  | c :: rest =>
    if c = '-' then
      match rest with
      | c2 :: _ =>
        if jsIsSpace c2 then
          match rest.dropWhile jsIsSpace with
          | '[' :: _ :: ']' :: rest2 => some rest2
          | _ => none
        else none
      | [] => none
    else none
  | [] => none

/-- `line.match(/^\s*-\s+\[.\]/)` of `getEvents.ts`. -/
def isChecklistLine (s : String) : Bool :=
  (checklistMatchRest s.toList).isSome

/-- `line.replace(/^\s*-\s+\[.\]\s*/, '').trim()` of `getEvents.ts`. -/
def stripCheckboxHeader (s : String) : String :=
  match checklistMatchRest s.toList with
  | some rest => jsTrim ⟨rest.dropWhile jsIsSpace⟩
  | none => jsTrim s

/-- `line.match(/^\s+/)` of `getEvents.ts`: non-empty leading whitespace. -/
def isIndented (s : String) : Bool :=
  match s.toList with
  | c :: _ => jsIsSpace c
  | [] => false

/-- The line grouper's body-collection loop: greedily consume the following
lines that are indented and are not themselves checklist lines; return the
trimmed body lines and the remaining lines. -/
def collectBody : List String → List String × List String
  | [] => ([], [])
  | l :: ls =>
    if isIndented l && !isChecklistLine l then
      let br := collectBody ls
      (jsTrim l :: br.1, br.2)
    else ([], l :: ls)

/-- The line-scanning loop of `getEventsFromFile`, fuelled by the number of
lines: partition the lines into `ListEntry` groups, each paired with the
line index of its header line. -/
def groupFromFuel : Nat → List String → Nat → List (ListEntry × Nat)
  | 0, _, _ => []
  | _, [], _ => []
  | fuel + 1, l :: ls, i =>
    if isChecklistLine l then
      let br := collectBody ls
      (⟨stripCheckboxHeader l, joinLines br.1⟩, i) ::
        groupFromFuel fuel br.2 (i + 1 + br.1.length)
    else
      (⟨"", l⟩, i) :: groupFromFuel fuel ls (i + 1)

/-- Grouping of a whole file's lines, starting at line index 0. -/
def groupEntries (lines : List String) : List (ListEntry × Nat) :=
  groupFromFuel lines.length lines 0

/-- The pure core of `getEventsFromFile` of `getEvents.ts`: group the file's
lines into entries, parse each entry, and keep every synthesized event, in
line order. -/
def getEventsFromFile (fileLines : List String) (path : String) : List Event :=
  (groupEntries fileLines).filterMap fun gi =>
    convertToEvent (parseLine gi.1) gi.2 path

/-- `getMarkBasedOnEvent` of `parser.ts`: reverse mapping from a `TASK-`
prefixed category label to a representative status character. -/
def getMarkBasedOnEvent (eventType : String) : Option String :=
  if eventType = "" ∨ jsStartsWith "TASK-" eventType = false then none
  else
    match (jsSplit '-' eventType).getD 1 "" with
    | "TODO" => some " "
    | "DONE" => some "x"
    | "CANCELLED" => some "-"
    | "IN_PROGRESS" => some "/"
    | "IMPORTANT" => some "!"
    | "QUESTION" => some "?"
    | "REVIEW" => some ">"
    | "IDEA" => some "i"
    | "PRO" => some "+"
    | "CON" => some "-"
    | "BRAINSTORMING" => some "b"
    | "EXAMPLE" => some "e"
    | "QUOTE" => some "q"
    | "NOTE" => some "n"
    | "WIN" => some "w"
    | "LOSE" => some "l"
    | _ => some " "

/-- The `TASK-<KIND>` kinds with a dedicated branch in
`getMarkBasedOnEvent` (every other kind falls to the default branch). -/
def recognizedKinds : List String :=
  ["TODO", "DONE", "CANCELLED", "IN_PROGRESS", "IMPORTANT", "QUESTION",
   "REVIEW", "IDEA", "PRO", "CON", "BRAINSTORMING", "EXAMPLE", "QUOTE",
   "NOTE", "WIN", "LOSE"]

/-- The query record of `eventMatchesFilter` (optional fields model absent
properties; the code also skips falsy, i.e. empty, strings). -/
structure Query where
  eventType : Option String
  contentRegex : Option String
  folderPaths : Option (List String)
deriving DecidableEq, Repr

/-- `eventMatchesFilter` of `getEvents.ts`, parameterized by the JavaScript
regular-expression engine boundary: `compile` returns the compiled matcher,
or nothing when the pattern is invalid (`new RegExp` throws). -/
def eventMatchesFilter (compile : String → Option (String → Bool))
    (event : Event) (filter : Query) : Bool :=
  let failType :=
    match filter.eventType with
    | some t => t != "" && event.eventType != t
    | none => false
  if failType then false else
  let failRegex :=
    match filter.contentRegex with
    | some pat =>
      pat != "" &&
        (match compile pat with
         | some test => !test event.title
         | none => false)
    | none => false
  if failRegex then false else
  let failFolder :=
    match filter.folderPaths with
    | some fps =>
      decide (0 < fps.length) && event.path != "" &&
        !(fps.any fun fp => jsStartsWith fp event.path)
    | none => false
  if failFolder then false else true

/-- Matcher for `PATTERNS.TASK`'s list-marker alternation
`(-|\*|\+|\d+\.)`: on a match, return what follows the marker. -/
def markerMatch (cs : List Char) : Option (List Char) :=
  match cs with
  | '-' :: rest => some rest
  | '*' :: rest => some rest
  | '+' :: rest => some rest
  | _ =>
    let ds := cs.takeWhile isDigitChar
    if ds.isEmpty then none
    else
      match cs.drop ds.length with
      | '.' :: rest => some rest
      | _ => none

/-- Test of `PATTERNS.TASK` (`/^(\s*)(-|\*|\+|\d+\.)\s+\[(.)\]\s+(.*)$/`)
of `parser.ts`. -/
def taskPatternAccepts (s : String) : Bool :=
  match markerMatch (s.toList.dropWhile jsIsSpace) with
  | some r =>
    match r with
    | c :: _ =>
      jsIsSpace c &&
        (match r.dropWhile jsIsSpace with
         | '[' :: _ :: ']' :: r2 =>
           match r2 with
           | c2 :: _ => jsIsSpace c2
           | [] => false
         | _ => false)
    | [] => false
  | none => false

/-- C1: `convertToEvent` returns an event if and only if the parsed entry's
`dates` sequence is non-empty; for every parsed entry with zero extracted
dates it returns `none` ("no event"), and this is not an error (the function
is total). The hypothesis records the invariant, enforced by the `DateInfo`
type of the source, that every date record carries the literal tag "date". -/
theorem convertToEvent_some_iff_dates_nonempty (p : ParsedLine) (i : Nat)
    (path : String) (h : ∀ d ∈ p.dates, d.type = "date") :
    (convertToEvent p i path).isSome = true ↔ p.dates ≠ [] := by
  rcases hdd : p.dates with _ | ⟨d, rest⟩
  · simp [convertToEvent, hdd]
  · have hdt : d.type = "date" := h d (by rw [hdd]; exact List.mem_cons_self d rest)
    simp [convertToEvent, hdd, hdt]

/-- Witness for C1 at the concrete entry with body "x @{2024-07-08}". -/
theorem convertToEvent_some_iff_dates_nonempty_witness :
    (convertToEvent (parseLine ⟨"", "x @{2024-07-08}"⟩) 1 "n.md").isSome = true ↔
      (parseLine ⟨"", "x @{2024-07-08}"⟩).dates ≠ [] :=
  convertToEvent_some_iff_dates_nonempty (parseLine ⟨"", "x @{2024-07-08}"⟩) 1
    "n.md" (by decide)

/-- C3: `parseLine` runs date extraction against the body text only; the
header contributes nothing to the `dates` sequence of the parsed entry. -/
theorem parseLine_dates_from_body_only (header body : String) :
    (parseLine ⟨header, body⟩).dates = extractDates body := rfl

/-- C4 counterexample: the line "- [x] Foo @{2024-03-01}" is recognized as a
checklist line by the grouper, yet the resulting parsed entry's
`statusCharacter` and `taskStatus` are unset (and `isTask` is false): the
checkbox's status character is discarded, not mapped through the status
table. -/
theorem grouper_status_fields_unset_cex :
    isChecklistLine "- [x] Foo @{2024-03-01}" = true ∧
    ((groupEntries ["- [x] Foo @{2024-03-01}"]).map fun gi =>
        ((parseLine gi.1).statusCharacter, (parseLine gi.1).taskStatus,
          (parseLine gi.1).isTask)) = [(none, none, false)] := by decide

/-- C4 amended: for every entry the grouper hands to the entry parser, the
parsed entry's `statusCharacter` and `taskStatus` stay unset and `isTask`
stays false — the checkbox's status character is stripped together with the
checkbox and never consulted against the status-mapping table. -/
theorem parseLine_never_sets_status (e : ListEntry) :
    (parseLine e).statusCharacter = none ∧ (parseLine e).taskStatus = none ∧
      (parseLine e).isTask = false :=
  ⟨rfl, rfl, rfl⟩

/-- C6: every produced event's id is the start date/time formatted to minute
precision (YYYYMMDDHHmm), followed by the fixed two-digit suffix "00",
followed by the decimal originating line index. -/
theorem convertToEvent_id_format (p : ParsedLine) (i : Nat) (path : String)
    (e : Event) (h : convertToEvent p i path = some e) :
    e.id = formatYYYYMMDDHHmm e.start ++ "00" ++ toString i := by
  unfold convertToEvent at h
  split at h
  · split at h
    · injection h with h2
      subst h2
      rfl
    · simp at h
  · simp at h

/-- Witness for C6: start 2024-03-01 00:00 at line index 7 gives
"202403010000" ++ "00" ++ "7". -/
theorem convertToEvent_id_format_witness :
    "202403010000007" = formatYYYYMMDDHHmm ⟨2024, 3, 1, 0, 0⟩ ++ "00" ++ toString 7 :=
  convertToEvent_id_format (parseLine ⟨"", " @{2024-03-01}"⟩) 7 "notes/todo.md"
    { id := "202403010000007", title := "", start := ⟨2024, 3, 1, 0, 0⟩,
      «end» := ⟨2024, 3, 1, 0, 0⟩, allDay := true, eventType := "default",
      path := "notes/todo.md", blockLink := none } (by decide)

/-- One unfolding step of the grouper's scanning loop on a non-empty fuel and
a non-empty line list. -/
theorem groupFromFuel_cons (fuel : Nat) (l : String) (ls : List String) (i : Nat) :
    groupFromFuel (fuel + 1) (l :: ls) i =
      if isChecklistLine l = true then
        (⟨stripCheckboxHeader l, joinLines (collectBody ls).1⟩, i) ::
          groupFromFuel fuel (collectBody ls).2 (i + 1 + (collectBody ls).1.length)
      else (⟨"", l⟩, i) :: groupFromFuel fuel ls (i + 1) := rfl

/-- C2 (evaluation at the claimed scenario): the file whose line at index 2 is
"- [ ] Buy milk @{2024-03-01}" yields zero events, although the due-date
annotation on that line is extractable on its own — the grouper moves the
whole checklist text, date annotation included, into the entry header, and
`parseLine` extracts dates from the body only. -/
theorem getEventsFromFile_single_line_checklist_no_event :
    getEventsFromFile ["", "", "- [ ] Buy milk @{2024-03-01}"] "notes/todo.md" = [] ∧
      extractDates "- [ ] Buy milk @{2024-03-01}" ≠ [] := by decide

/-- C5: whenever `convertToEvent` produces an event, its start and end both
equal the moment of the first element of the `dates` sequence and `allDay` is
true; the event does not depend on the subsequent dates of the entry (any
tail yields the same event), and every moment built by date extraction is at
day granularity (midnight). -/
theorem convertToEvent_uses_first_date (p : ParsedLine) (i : Nat) (path : String)
    (e : Event) (h : convertToEvent p i path = some e) :
    ∃ d0, p.dates.head? = some d0 ∧ e.start = d0.moment ∧ e.«end» = d0.moment ∧
      e.allDay = true ∧
      (d0.type = "date" → ∀ ds,
        convertToEvent { p with dates := d0 :: ds } i path = some e) ∧
      (∀ s : String, ∀ d ∈ extractDates s, d.moment.hour = 0 ∧ d.moment.minute = 0) := by
  unfold convertToEvent at h
  split at h
  · split at h
    next d0 heq =>
      injection h with h2
      subst h2
      refine ⟨d0, heq, rfl, rfl, rfl, ?_, ?_⟩
      · intro htype ds
        unfold convertToEvent
        simp [htype]
      · intro s d hmem
        unfold extractDates at hmem
        rcases List.mem_map.mp hmem with ⟨rd, _, rfl⟩
        exact ⟨rfl, rfl⟩
    next heq => simp at h
  · simp at h

/-- Concrete entry used by the C5 witness. -/
def entryC5 : ListEntry := ⟨"Task", " @{2024-04-10}"⟩

/-- Concrete event produced for `entryC5` at line index 3. -/
def eventC5 : Event :=
  { id := "202404100000003", title := "Task", start := ⟨2024, 4, 10, 0, 0⟩,
    «end» := ⟨2024, 4, 10, 0, 0⟩, allDay := true, eventType := "default",
    path := "p.md", blockLink := none }

/-- Witness for C5 at the concrete entry `entryC5`. -/
theorem convertToEvent_uses_first_date_witness :
    ∃ d0, (parseLine entryC5).dates.head? = some d0 ∧ eventC5.start = d0.moment ∧
      eventC5.«end» = d0.moment ∧ eventC5.allDay = true ∧
      (d0.type = "date" → ∀ ds,
        convertToEvent { parseLine entryC5 with dates := d0 :: ds } 3 "p.md" =
          some eventC5) ∧
      (∀ s : String, ∀ d ∈ extractDates s, d.moment.hour = 0 ∧ d.moment.minute = 0) :=
  convertToEvent_uses_first_date (parseLine entryC5) 3 "p.md" eventC5 (by decide)

/-- C7: a checklist line followed by one indented non-checklist line and then
an un-indented line forms one entry whose body is exactly the trimmed
indented line; consumption stops at the un-indented line, which starts a new
entry of its own at line index 2 (a checklist entry with empty body when it
is itself a checklist line, a standalone body-only entry otherwise). -/
theorem grouper_body_boundary (l0 l1 l2 : String)
    (h0 : isChecklistLine l0 = true) (h1 : isIndented l1 = true)
    (h2 : isChecklistLine l1 = false) (h3 : isIndented l2 = false) :
    groupEntries [l0, l1, l2] =
      [(⟨stripCheckboxHeader l0, jsTrim l1⟩, 0),
       ((if isChecklistLine l2 = true then (⟨stripCheckboxHeader l2, ""⟩ : ListEntry)
         else ⟨"", l2⟩), 2)] := by
  have hcb2 : collectBody [l2] = ([], [l2]) := by
    unfold collectBody
    simp [h3]
  have hcb : collectBody [l1, l2] = ([jsTrim l1], [l2]) := by
    unfold collectBody
    simp [h1, h2, hcb2]
  have e1 : groupEntries [l0, l1, l2] = groupFromFuel (2 + 1) [l0, l1, l2] 0 := rfl
  rw [e1, groupFromFuel_cons, if_pos h0, hcb]
  have e2 : groupFromFuel 2 [l2] (0 + 1 + ([jsTrim l1] : List String).length) =
      groupFromFuel (1 + 1) [l2] 2 := rfl
  rw [e2, groupFromFuel_cons]
  by_cases hc : isChecklistLine l2 = true
  · rw [if_pos hc, if_pos hc]
    rfl
  · rw [if_neg hc, if_neg hc]
    rfl

/-- Witness for C7 at a concrete three-line file. -/
theorem grouper_body_boundary_witness :
    groupEntries ["- [ ] Task", "  body line", "plain"] =
      [(⟨stripCheckboxHeader "- [ ] Task", jsTrim "  body line"⟩, 0),
       (⟨"", "plain"⟩, 2)] :=
  grouper_body_boundary "- [ ] Task" "  body line" "plain"
    (by decide) (by decide) (by decide) (by decide)

/-- C8 counterexample: "TASK-ZZZ" is a label starting with "TASK-" whose kind
"ZZZ" is not one of the recognized kinds, yet `getMarkBasedOnEvent` returns
the space character, not "no character" (null). -/
theorem getMark_unrecognized_kind_cex :
    jsStartsWith "TASK-" "TASK-ZZZ" = true ∧
      getMarkBasedOnEvent "TASK-ZZZ" = some " " ∧
      getMarkBasedOnEvent "TASK-ZZZ" ≠ none := by decide

/-- C8 amended: `getMarkBasedOnEvent` returns "no character" (null) exactly
for the empty label and labels not starting with "TASK-"; a "TASK-<KIND>"
label whose kind is not recognized falls to the default branch and yields
the space character (the Todo mark) instead of null. -/
theorem getMark_null_iff (s : String) :
    (getMarkBasedOnEvent s = none ↔ s = "" ∨ jsStartsWith "TASK-" s = false) ∧
      (jsStartsWith "TASK-" s = true →
        (jsSplit '-' s).getD 1 "" ∉ recognizedKinds →
        getMarkBasedOnEvent s = some " ") := by
  constructor
  · by_cases h : s = "" ∨ jsStartsWith "TASK-" s = false
    · unfold getMarkBasedOnEvent
      rw [if_pos h]
      exact iff_of_true rfl h
    · unfold getMarkBasedOnEvent
      rw [if_neg h]
      refine iff_of_false ?_ h
      split <;> simp
  · intro hp hk
    have hs : ¬(s = "" ∨ jsStartsWith "TASK-" s = false) := by
      rintro (h1 | h2)
      · rw [h1] at hp
        exact absurd hp (by decide)
      · rw [hp] at h2
        exact Bool.noConfusion h2
    unfold getMarkBasedOnEvent
    rw [if_neg hs]
    split
    all_goals first
      | rfl
      | (exfalso; apply hk; simp_all [recognizedKinds])

/-- Witness for C8's amended claim at the concrete label "TASK-ZZZ". -/
theorem getMark_null_iff_witness :
    getMarkBasedOnEvent "TASK-ZZZ" = some " " :=
  (getMark_null_iff "TASK-ZZZ").2 (by decide) (by decide)

/-- C9: a content regex that fails to compile never causes a rejection — for
every event and every query whose `contentRegex` is a pattern the regex
engine rejects, the filter result equals the result of the same query with
no `contentRegex` constraint. -/
theorem eventMatchesFilter_invalid_regex (compile : String → Option (String → Bool))
    (e : Event) (q : Query) (pat : String) (hq : q.contentRegex = some pat)
    (hc : compile pat = none) :
    eventMatchesFilter compile e q =
      eventMatchesFilter compile e { q with contentRegex := none } := by
  unfold eventMatchesFilter
  simp [hq, hc]

/-- Witness for C9 at a concrete event, an engine rejecting every pattern,
and the invalid pattern "(". -/
theorem eventMatchesFilter_invalid_regex_witness :
    eventMatchesFilter (fun _ => none)
        { id := "x", title := "t", start := ⟨2024, 1, 1, 0, 0⟩,
          «end» := ⟨2024, 1, 1, 0, 0⟩, allDay := true, eventType := "default",
          path := "work/a.md", blockLink := none }
        ⟨none, some "(", none⟩ =
      eventMatchesFilter (fun _ => none)
        { id := "x", title := "t", start := ⟨2024, 1, 1, 0, 0⟩,
          «end» := ⟨2024, 1, 1, 0, 0⟩, allDay := true, eventType := "default",
          path := "work/a.md", blockLink := none }
        ⟨none, none, none⟩ :=
  eventMatchesFilter_invalid_regex (fun _ => none) _ ⟨none, some "(", none⟩ "(" rfl rfl

/-- C10: the grouper recognizes a checklist entry only when the list marker
is "-": any line whose first non-whitespace character is not "-" (so marker
"*", "+", or a numbered marker) is never grouped — it becomes a standalone
single-line entry whose whole line, marker and checkbox included, is the
body and hence the content source — even though the pattern library's TASK
pattern accepts the markers "*", "+" and "12.". -/
theorem grouper_dash_marker_only (l : String) (ls : List String) (i fuel : Nat)
    (h : (l.toList.dropWhile jsIsSpace).head? ≠ some '-') :
    isChecklistLine l = false ∧
      groupFromFuel (fuel + 1) (l :: ls) i =
        (⟨"", l⟩, i) :: groupFromFuel fuel ls (i + 1) ∧
      (parseLine ⟨"", l⟩).content = cleanContent l (extractDates l) ∧
      taskPatternAccepts "* [ ] Task @{2024-03-01}" = true ∧
      taskPatternAccepts "+ [ ] Task @{2024-03-01}" = true ∧
      taskPatternAccepts "12. [ ] Task @{2024-03-01}" = true := by
  have h1 : isChecklistLine l = false := by
    unfold isChecklistLine checklistMatchRest
    cases hcs : l.toList.dropWhile jsIsSpace with
    | nil => rfl
    | cons c cs =>
      have hc : ¬(c = '-') := by
        intro hh
        exact h (by rw [hcs, hh]; rfl)
      simp [hc]
  refine ⟨h1, ?_, rfl, by decide, by decide, by decide⟩
  rw [groupFromFuel_cons, if_neg (by simp [h1])]

/-- Witness for C10 at the concrete line "* [ ] Task @{2024-03-01}". -/
theorem grouper_dash_marker_only_witness :
    isChecklistLine "* [ ] Task @{2024-03-01}" = false ∧
      groupFromFuel (0 + 1) ["* [ ] Task @{2024-03-01}"] 5 =
        (⟨"", "* [ ] Task @{2024-03-01}"⟩, 5) :: groupFromFuel 0 [] (5 + 1) ∧
      (parseLine ⟨"", "* [ ] Task @{2024-03-01}"⟩).content =
        cleanContent "* [ ] Task @{2024-03-01}"
          (extractDates "* [ ] Task @{2024-03-01}") ∧
      taskPatternAccepts "* [ ] Task @{2024-03-01}" = true ∧
      taskPatternAccepts "+ [ ] Task @{2024-03-01}" = true ∧
      taskPatternAccepts "12. [ ] Task @{2024-03-01}" = true :=
  grouper_dash_marker_only "* [ ] Task @{2024-03-01}" [] 5 0 (by decide)

end BigCalendar
